import Mathlib

/-
Verification of the Generative AI Content Evaluation System against its
specification.  The Python sources under src/ are shallowly embedded below:
database rows become structures, the SQLAlchemy-backed tables become lists
inside a `Db` state record, datetimes become integer timestamps (seconds),
floats become exact rationals (reals where a square root is taken), and
Python functions become Lean functions threading the `Db` state explicitly.
-/

namespace GenAIEval

/-- Row of the `users` table (models.py, class User); only the fields the
verified operations inspect are kept. -/
structure User where
  id : Nat
  username : String
  isActive : Bool := true
deriving Repr, DecidableEq

/-- Row of the `contents` table (models.py, class Content). -/
structure Content where
  id : Nat
  title : String
  text : String
  domain : String
  sourceType : String
  modelName : Option String := none
deriving Repr, DecidableEq

/-- Row of the `evaluation_criteria` table (models.py, class EvaluationCriterion). -/
structure EvaluationCriterion where
  id : Nat
  name : String
  scaleMin : Int := 1
  scaleMax : Int := 5
deriving Repr, DecidableEq

/-- Row of the `evaluations` table (models.py, class Evaluation). -/
structure Evaluation where
  id : Nat
  evaluatorId : Nat
  contentId : Nat
  startTime : Int
  completionTime : Option Int := none
  durationSeconds : Option Int := none
  overallRating : Option ℚ := none
  comments : Option String := none
  passedQualityChecks : Option Bool := none
deriving Repr, DecidableEq

/-- Row of the `evaluation_scores` table (models.py, class EvaluationScore). -/
structure EvaluationScore where
  evaluationId : Nat
  criterionId : Nat
  score : ℚ
deriving Repr, DecidableEq

/-- Row of the `quality_check_questions` table (models.py, class QualityCheckQuestion). -/
structure QualityCheckQuestion where
  id : Nat
  questionText : String
  correctAnswer : String
deriving Repr, DecidableEq

/-- The persistent database state: one list per table the verified
operations touch, plus the autoincrement counter for evaluation ids. -/
structure Db where
  users : List User
  contents : List Content
  criteria : List EvaluationCriterion
  evaluations : List Evaluation
  scores : List EvaluationScore
  questions : List QualityCheckQuestion
  nextEvalId : Nat
deriving Repr

/-- Models `session.query(User).get(user_id)`. -/
def findUser (db : Db) (userId : Nat) : Option User :=
  db.users.find? (fun u => u.id == userId)

/-- Models `session.query(Content).get(content_id)`. -/
def findContent (db : Db) (contentId : Nat) : Option Content :=
  db.contents.find? (fun c => c.id == contentId)

/-- Models `session.query(EvaluationCriterion).get(criterion_id)`. -/
def findCriterion (db : Db) (criterionId : Nat) : Option EvaluationCriterion :=
  db.criteria.find? (fun c => c.id == criterionId)

/-- Models `session.query(Evaluation).get(evaluation_id)`. -/
def findEvaluation (db : Db) (evalId : Nat) : Option Evaluation :=
  db.evaluations.find? (fun e => e.id == evalId)

/-- Models `session.query(QualityCheckQuestion).get(question_id)`. -/
def findQuestion (questions : List QualityCheckQuestion) (questionId : Nat) :
    Option QualityCheckQuestion :=
  questions.find? (fun q => q.id == questionId)

/-- Configuration constant MIN_EVALUATION_TIME_SECONDS (config.py). -/
def MIN_EVALUATION_TIME_SECONDS : Int := 60

/-- Python `str.lower`: lower-case every character. -/
def strLower (s : String) : String := String.mk (s.data.map Char.toLower)

/-- The counting loop of `QualityController.validate_quality_checks`
(quality_control.py lines 85-97): an answer counts as correct when its
question id is found and the stored correct answer matches the given
answer case-insensitively; an unknown question id is skipped (it can
never count as correct but still sits in the denominator). -/
def countCorrect (questions : List QualityCheckQuestion)
    (answers : List (Nat × String)) : Nat :=
  answers.countP (fun p =>
    match findQuestion questions p.1 with
    | none => false
    | some q => strLower q.correctAnswer == strLower p.2)

/-- Embeds `QualityController.validate_quality_checks` (quality_control.py
lines 72-104).  The answers dictionary is modelled as an association list. -/
def validate_quality_checks (questions : List QualityCheckQuestion)
    (answers : List (Nat × String)) : Bool :=
  if answers.isEmpty then false
  else
    let correctCount := countCorrect questions answers
    let totalCount := answers.length
    if totalCount > 0 then
      decide ((7 : ℚ) / 10 ≤ (correctCount : ℚ) / (totalCount : ℚ))
    else false

/-- Example question bank: ten questions whose correct answer is "yes". -/
def exQuestions : List QualityCheckQuestion :=
  (List.range 10).map (fun i =>
    { id := i + 1, questionText := "q", correctAnswer := "yes" })

/-- Seven correct answers (case differing) and three wrong ones. -/
def exAnswers7 : List (Nat × String) :=
  [(1, "Yes"), (2, "YES"), (3, "yes"), (4, "yes"), (5, "yes"), (6, "yes"),
   (7, "yes"), (8, "no"), (9, "no"), (10, "no")]

/-- Six correct answers and four wrong ones. -/
def exAnswers6 : List (Nat × String) :=
  [(1, "yes"), (2, "yes"), (3, "yes"), (4, "yes"), (5, "yes"), (6, "yes"),
   (7, "no"), (8, "no"), (9, "no"), (10, "no")]

/-- C6: validate_quality_checks passes exactly when the fraction of
supplied answers matching the stored correct answer case-insensitively is
at least 0.7; it fails on the empty answer set; in particular 7 correct of
10 passes and 6 correct of 10 fails. -/
theorem C6_validate_threshold :
    (∀ (questions : List QualityCheckQuestion) (answers : List (Nat × String)),
      validate_quality_checks questions answers = true ↔
        (answers ≠ [] ∧
          (7 : ℚ) / 10 ≤ (countCorrect questions answers : ℚ) / (answers.length : ℚ))) ∧
    (∀ questions : List QualityCheckQuestion,
      validate_quality_checks questions [] = false) ∧
    validate_quality_checks exQuestions exAnswers7 = true ∧
    validate_quality_checks exQuestions exAnswers6 = false := by
  refine ⟨?_, ?_, ?_, ?_⟩
  · intro questions answers
    unfold validate_quality_checks
    rcases answers with _ | ⟨a, rest⟩
    · simp
    · simp [List.isEmpty]
  · intro questions
    rfl
  · have h : countCorrect exQuestions exAnswers7 = 7 := by decide
    have hl : exAnswers7.length = 10 := by decide
    have hne : exAnswers7.isEmpty = false := by decide
    simp only [validate_quality_checks, hne, h, hl, Bool.false_eq_true, if_false,
      decide_eq_true_iff, gt_iff_lt, Nat.ofNat_pos, if_true]
    norm_num
  · have h : countCorrect exQuestions exAnswers6 = 6 := by decide
    have hl : exAnswers6.length = 10 := by decide
    have hne : exAnswers6.isEmpty = false := by decide
    simp only [validate_quality_checks, hne, h, hl, Bool.false_eq_true, if_false,
      decide_eq_false_iff_not, gt_iff_lt, Nat.ofNat_pos, if_true]
    norm_num

/-- Question bank with a single stored question (id 1, answer "a"). -/
def exQsC10 : List QualityCheckQuestion :=
  [{ id := 1, questionText := "q", correctAnswer := "a" }]

/-- Three answers: the only one addressed to a stored question is correct,
the other two reference unknown question ids. -/
def exAnsC10 : List (Nat × String) := [(1, "a"), (2, "x"), (3, "x")]

/-- C10: every supplied answer counts in the denominator of the pass
fraction while answers to unknown question ids can never count as correct;
hence a non-empty answer set whose known-question answers are all correct
still fails whenever more than 30 percent of the answers reference unknown
question ids. -/
theorem C10_unknown_answers_in_denominator
    (questions : List QualityCheckQuestion) (answers : List (Nat × String))
    (hne : answers ≠ [])
    (hcorrect : ∀ p ∈ answers,
      (findQuestion questions p.1).all
        (fun q => strLower q.correctAnswer == strLower p.2) = true)
    (hunknown : 3 * answers.length <
      10 * answers.countP (fun p => (findQuestion questions p.1).isNone)) :
    countCorrect questions answers ≤
      answers.countP (fun p => (findQuestion questions p.1).isSome) ∧
    validate_quality_checks questions answers = false := by
  have hmono : countCorrect questions answers ≤
      answers.countP (fun p => (findQuestion questions p.1).isSome) := by
    apply List.countP_mono_left
    intro p _ hp
    rcases hfind : findQuestion questions p.1 with _ | q
    · rw [hfind] at hp; simp at hp
    · simp
  refine ⟨hmono, ?_⟩
  have hsplit : answers.countP (fun p => (findQuestion questions p.1).isSome) +
      answers.countP (fun p => (findQuestion questions p.1).isNone) = answers.length := by
    have h := List.length_eq_countP_add_countP
      (l := answers) (p := fun p => (findQuestion questions p.1).isSome)
    rw [h]
    congr 1
    apply List.countP_congr
    intro p _
    rcases findQuestion questions p.1 with _ | q <;> simp
  have hlt : 10 * countCorrect questions answers < 7 * answers.length := by omega
  have hlen : 0 < answers.length := List.length_pos.mpr hne
  unfold validate_quality_checks
  rw [if_neg (by simpa [List.isEmpty_iff] using hne)]
  rw [if_pos hlen]
  rw [decide_eq_false_iff_not]
  rw [not_le]
  rw [div_lt_div_iff₀ (by exact_mod_cast hlen) (by norm_num)]
  exact_mod_cast
    (by omega : countCorrect questions answers * 10 < 7 * answers.length)

/-- Witness for C10 at a concrete database and answer set. -/
theorem C10_unknown_answers_in_denominator_witness :
    countCorrect exQsC10 exAnsC10 ≤
      exAnsC10.countP (fun p => (findQuestion exQsC10 p.1).isSome) ∧
    validate_quality_checks exQsC10 exAnsC10 = false :=
  C10_unknown_answers_in_denominator exQsC10 exAnsC10 (by decide) (by decide)
    (by decide)

/-- Embeds `QualityController.check_evaluation_time` (quality_control.py
lines 106-150).  Returns none when the completed evaluation has no stored
duration, where the source would compare None against an int and raise a
TypeError; every completed evaluation written by submit_evaluation carries
a duration, so that path is unreachable in the running system. -/
def check_evaluation_time (db : Db) (evalId : Nat) : Option Bool :=
  match findEvaluation db evalId with
  | none => some false
  | some e =>
    match e.completionTime with
    | none => some false
    | some _ =>
      match e.durationSeconds with
      | none => none
      | some duration =>
        if duration < MIN_EVALUATION_TIME_SECONDS then some false
        else
          match findContent db e.contentId with
          | none => some false
          | some content =>
            let textLength : Nat := content.text.length
            let expectedTime : ℚ :=
              max ((MIN_EVALUATION_TIME_SECONDS : Int) : ℚ) ((textLength : ℚ) / 10)
            let minAcceptable : ℚ := expectedTime * (1 / 2)
            if (duration : ℚ) < minAcceptable then some false else some true

/-- C8: for a completed evaluation with a stored duration and existing
content, check_evaluation_time returns false when the duration is below 60
seconds and otherwise returns true exactly when the duration reaches half
of the expected time max(60, text_length / 10). -/
theorem C8_check_evaluation_time (db : Db) (evalId : Nat) (e : Evaluation)
    (d : Int) (content : Content)
    (he : findEvaluation db evalId = some e)
    (hct : e.completionTime.isSome = true)
    (hd : e.durationSeconds = some d)
    (hcontent : findContent db e.contentId = some content) :
    check_evaluation_time db evalId =
      some (if d < MIN_EVALUATION_TIME_SECONDS then false
        else decide (max ((MIN_EVALUATION_TIME_SECONDS : Int) : ℚ)
          ((content.text.length : ℚ) / 10) * (1 / 2) ≤ (d : ℚ))) := by
  unfold check_evaluation_time
  rw [he]
  rcases hcte : e.completionTime with _ | t
  · rw [hcte] at hct; simp at hct
  · by_cases hfast : d < MIN_EVALUATION_TIME_SECONDS
    · simp only [hcte, hd, hcontent, if_pos hfast]
    · simp only [hcte, hd, hcontent, if_neg hfast]
      by_cases hslow : (d : ℚ) <
          max ((MIN_EVALUATION_TIME_SECONDS : Int) : ℚ) ((content.text.length : ℚ) / 10) * (1 / 2)
      · rw [if_pos hslow, decide_eq_false (not_le.mpr hslow)]
      · rw [if_neg hslow, decide_eq_true (not_lt.mp hslow)]

/-- A 1000-character content text. -/
def exTextC8 : String := String.mk (List.replicate 1000 'x')

/-- Content item with a 1000-character text. -/
def exContentC8 : Content :=
  { id := 1, title := "t", text := exTextC8, domain := "news_articles", sourceType := "ai" }

/-- Evaluation of the 1000-character content completed in 40 seconds. -/
def exEvalC8slow : Evaluation :=
  { id := 1, evaluatorId := 1, contentId := 1, startTime := 0,
    completionTime := some 40, durationSeconds := some 40 }

/-- Evaluation of the 1000-character content completed in 60 seconds. -/
def exEvalC8ok : Evaluation :=
  { id := 1, evaluatorId := 1, contentId := 1, startTime := 0,
    completionTime := some 60, durationSeconds := some 60 }

/-- Database holding the 40-second evaluation. -/
def exDbC8slow : Db :=
  { users := [], contents := [exContentC8], criteria := [],
    evaluations := [exEvalC8slow], scores := [], questions := [], nextEvalId := 2 }

/-- Database holding the 60-second evaluation. -/
def exDbC8ok : Db :=
  { users := [], contents := [exContentC8], criteria := [],
    evaluations := [exEvalC8ok], scores := [], questions := [], nextEvalId := 2 }

/-- Witness for C8: with text length 1000 a 40-second evaluation fails and
a 60-second one passes. -/
theorem C8_check_evaluation_time_witness :
    check_evaluation_time exDbC8slow 1 = some false ∧
    check_evaluation_time exDbC8ok 1 = some true := by
  have hlen : exContentC8.text.length = 1000 := by
    have h1 : exContentC8.text.length = (List.replicate 1000 'x').length := rfl
    rw [h1, List.length_replicate]
  constructor
  · rw [C8_check_evaluation_time exDbC8slow 1 exEvalC8slow 40 exContentC8
      (by rfl) (by rfl) (by rfl) (by rfl)]
    norm_num [MIN_EVALUATION_TIME_SECONDS]
  · rw [C8_check_evaluation_time exDbC8ok 1 exEvalC8ok 60 exContentC8
      (by rfl) (by rfl) (by rfl) (by rfl)]
    rw [hlen]
    norm_num [MIN_EVALUATION_TIME_SECONDS, max_def]

/-- The score-writing loop of `Evaluator.submit_evaluation` (evaluator.py
lines 202-223): each (criterion_id, score) pair is skipped when the
criterion id is unknown or the score falls outside the criterion's
[scale_min, scale_max]; otherwise an EvaluationScore row is created. -/
def validScoreRows (db : Db) (evalId : Nat) : List (Nat × ℚ) → List EvaluationScore
  | [] => []
  | (criterionId, score) :: rest =>
    match findCriterion db criterionId with
    | none => validScoreRows db evalId rest
    | some criterion =>
      if score < (criterion.scaleMin : ℚ) ∨ (criterion.scaleMax : ℚ) < score then
        validScoreRows db evalId rest
      else
        { evaluationId := evalId, criterionId := criterionId, score := score } ::
          validScoreRows db evalId rest

/-- Embeds `Evaluator.submit_evaluation` (evaluator.py lines 153-228).
The scores dictionary becomes an association list; `quality_check_answers`
equal to None or an empty dict both leave `passed_checks` at True, so both
are modelled by the empty list. -/
def submit_evaluation (db : Db) (evalId : Nat) (scores : List (Nat × ℚ))
    (overallRating : ℚ) (comments : Option String)
    (qualityCheckAnswers : List (Nat × String)) (now : Int) : Db × Bool × String :=
  match findEvaluation db evalId with
  | none => (db, false, "Evaluation ID " ++ toString evalId ++ " not found")
  | some e =>
    if e.completionTime.isSome then
      (db, false, "Evaluation ID " ++ toString evalId ++ " already completed")
    else
      let duration : Int := now - e.startTime
      let passedChecks : Bool :=
        if qualityCheckAnswers.isEmpty then true
        else validate_quality_checks db.questions qualityCheckAnswers
      let updated : Evaluation :=
        { e with
            completionTime := some now,
            durationSeconds := some duration,
            overallRating := some overallRating,
            comments := comments,
            passedQualityChecks := some passedChecks }
      ({ db with
          evaluations := db.evaluations.map (fun ev => if ev.id == evalId then updated else ev),
          scores := db.scores ++ validScoreRows db evalId scores },
        true, "Evaluation submitted successfully")

/-- Embeds `Evaluator.start_evaluation` (evaluator.py lines 106-151). -/
def start_evaluation (db : Db) (userId contentId : Nat) (now : Int) : Db × Option Nat :=
  match findUser db userId, findContent db contentId with
  | some _, some _ =>
    match db.evaluations.find?
        (fun e => e.evaluatorId == userId && e.contentId == contentId) with
    | some existing => (db, some existing.id)
    | none =>
      let newEval : Evaluation :=
        { id := db.nextEvalId, evaluatorId := userId, contentId := contentId,
          startTime := now }
      ({ db with
          evaluations := db.evaluations ++ [newEval],
          nextEvalId := db.nextEvalId + 1 },
        some newEval.id)
  | _, _ => (db, none)

/-- Number of Evaluation rows for one (evaluator, content) pair. -/
def pairCount (db : Db) (userId contentId : Nat) : Nat :=
  db.evaluations.countP (fun e => e.evaluatorId == userId && e.contentId == contentId)

/-- Replacing the row found by findEvaluation: mapping the conditional
update over the table makes the lookup return the updated row. -/
theorem findEvaluation_map_update (l : List Evaluation) (evalId : Nat)
    (e u : Evaluation) (hu : u.id = e.id)
    (h : l.find? (fun ev => ev.id == evalId) = some e) :
    (l.map (fun ev => if ev.id == evalId then u else ev)).find?
      (fun ev => ev.id == evalId) = some u := by
  induction l with
  | nil => simp at h
  | cons a t ih =>
    by_cases ha : (a.id == evalId) = true
    · rw [List.find?_cons, ha] at h
      injection h with h
      subst h
      have hu' : (u.id == evalId) = true := by
        rw [beq_iff_eq] at ha ⊢
        rw [hu, ha]
      simp only [List.map_cons, if_pos ha]
      rw [List.find?_cons, hu']
    · rw [Bool.not_eq_true] at ha
      simp only [List.find?_cons, ha] at h
      simp only [List.map_cons, ha, Bool.false_eq_true, if_false, List.find?_cons]
      exact ih h

/-- Membership in the created score rows: a row appears exactly for the
submitted pairs whose criterion exists and whose score is in range. -/
theorem mem_validScoreRows (db : Db) (evalId : Nat) (scores : List (Nat × ℚ))
    (criterionId : Nat) (score : ℚ) :
    ({ evaluationId := evalId, criterionId := criterionId, score := score } :
        EvaluationScore) ∈ validScoreRows db evalId scores ↔
      ((criterionId, score) ∈ scores ∧
        ∃ c, findCriterion db criterionId = some c ∧
          (c.scaleMin : ℚ) ≤ score ∧ score ≤ (c.scaleMax : ℚ)) := by
  induction scores with
  | nil => simp [validScoreRows]
  | cons p rest ih =>
    obtain ⟨cid, s⟩ := p
    rcases hfind : findCriterion db cid with _ | c
    · simp only [validScoreRows, hfind]
      rw [ih, List.mem_cons]
      constructor
      · rintro ⟨hmem, hc⟩
        exact ⟨Or.inr hmem, hc⟩
      · rintro ⟨hmem | hmem, hc⟩
        · obtain ⟨c, hc1, -⟩ := hc
          rw [Prod.mk.injEq] at hmem
          obtain ⟨h1, -⟩ := hmem
          rw [h1] at hc1
          rw [hfind] at hc1
          cases hc1
        · exact ⟨hmem, hc⟩
    · by_cases hrange : s < (c.scaleMin : ℚ) ∨ (c.scaleMax : ℚ) < s
      · simp only [validScoreRows, hfind, if_pos hrange]
        rw [ih, List.mem_cons]
        constructor
        · rintro ⟨hmem, hc⟩
          exact ⟨Or.inr hmem, hc⟩
        · rintro ⟨hmem | hmem, hc⟩
          · obtain ⟨c', hc1, hlo, hhi⟩ := hc
            rw [Prod.mk.injEq] at hmem
            obtain ⟨h1, h2⟩ := hmem
            rw [h1] at hc1
            rw [hfind] at hc1
            injection hc1 with hc1
            subst hc1
            subst h2
            rcases hrange with h | h
            · exact absurd hlo (not_le.mpr h)
            · exact absurd hhi (not_le.mpr h)
          · exact ⟨hmem, hc⟩
      · push_neg at hrange
        simp only [validScoreRows, hfind, if_neg
          (by push_neg; exact hrange : ¬(s < (c.scaleMin : ℚ) ∨ (c.scaleMax : ℚ) < s))]
        rw [List.mem_cons, ih, List.mem_cons]
        constructor
        · rintro (heq | ⟨hmem, hc⟩)
          · rw [EvaluationScore.mk.injEq] at heq
            obtain ⟨-, h2, h3⟩ := heq
            subst h2
            subst h3
            exact ⟨Or.inl rfl, c, hfind, hrange.1, hrange.2⟩
          · exact ⟨Or.inr hmem, hc⟩
        · rintro ⟨hmem | hmem, hc⟩
          · rw [Prod.mk.injEq] at hmem
            obtain ⟨h1, h2⟩ := hmem
            subst h1
            subst h2
            exact Or.inl rfl
          · exact Or.inr ⟨hmem, hc⟩

/-- C1: submitting an existing, not-yet-completed evaluation succeeds,
marks it completed at the submission time, and appends exactly one
EvaluationScore row per submitted pair whose criterion exists and whose
score lies inside the criterion's scale, silently skipping all other
pairs; this holds even when no pair validates. -/
theorem C1_submit_partial_scores (db : Db) (evalId : Nat)
    (scores : List (Nat × ℚ)) (overallRating : ℚ) (comments : Option String)
    (answers : List (Nat × String)) (now : Int) (e : Evaluation)
    (he : findEvaluation db evalId = some e)
    (hnc : e.completionTime = none) :
    (submit_evaluation db evalId scores overallRating comments answers now).2.1 = true ∧
    (∃ e', findEvaluation
        (submit_evaluation db evalId scores overallRating comments answers now).1 evalId =
          some e' ∧ e'.completionTime = some now) ∧
    (submit_evaluation db evalId scores overallRating comments answers now).1.scores =
      db.scores ++ validScoreRows db evalId scores ∧
    (∀ criterionId score,
      ({ evaluationId := evalId, criterionId := criterionId, score := score } :
          EvaluationScore) ∈ validScoreRows db evalId scores ↔
        ((criterionId, score) ∈ scores ∧
          ∃ c, findCriterion db criterionId = some c ∧
            (c.scaleMin : ℚ) ≤ score ∧ score ≤ (c.scaleMax : ℚ))) := by
  unfold submit_evaluation
  simp only [he]
  rw [if_neg (by simp [hnc])]
  refine ⟨rfl,
    ⟨{ e with
        completionTime := some now,
        durationSeconds := some (now - e.startTime),
        overallRating := some overallRating,
        comments := comments,
        passedQualityChecks := some (if answers.isEmpty then true
          else validate_quality_checks db.questions answers) },
      findEvaluation_map_update db.evaluations evalId e _ rfl he, rfl⟩,
    rfl,
    fun criterionId score => mem_validScoreRows db evalId scores criterionId score⟩

/-- Pending evaluation used in the C1 witness database. -/
def exEvalC1 : Evaluation :=
  { id := 1, evaluatorId := 1, contentId := 1, startTime := 0 }

/-- Witness database for C1: one known criterion with scale 1-5 and one
pending evaluation. -/
def exDbC1 : Db :=
  { users := [], contents := [],
    criteria := [{ id := 1, name := "accuracy", scaleMin := 1, scaleMax := 5 }],
    evaluations := [exEvalC1], scores := [], questions := [], nextEvalId := 2 }

/-- Submitted pairs for the C1 witness: one valid, one out of range, one
with an unknown criterion id. -/
def exScoresC1 : List (Nat × ℚ) := [(1, 3), (1, 99), (2, 2)]

/-- Witness for C1: the mixed submission succeeds and its created rows are
exactly those produced by the validation loop. -/
theorem C1_submit_partial_scores_witness :
    (submit_evaluation exDbC1 1 exScoresC1 4 none [] 100).2.1 = true ∧
    (submit_evaluation exDbC1 1 exScoresC1 4 none [] 100).1.scores =
      exDbC1.scores ++ validScoreRows exDbC1 1 exScoresC1 ∧
    validScoreRows exDbC1 1 exScoresC1 =
      [{ evaluationId := 1, criterionId := 1, score := 3 }] := by
  obtain ⟨h1, -, h3, -⟩ :=
    C1_submit_partial_scores exDbC1 1 exScoresC1 4 none [] 100 exEvalC1 rfl rfl
  exact ⟨h1, h3, by decide⟩

/-- C4: submitting an unknown or already-completed evaluation fails and
mutates nothing; for a completed evaluation the message is the
already-completed one. -/
theorem C4_submit_completed_no_mutation (db : Db) (evalId : Nat)
    (scores : List (Nat × ℚ)) (overallRating : ℚ) (comments : Option String)
    (answers : List (Nat × String)) (now : Int)
    (h : findEvaluation db evalId = none ∨
      ∃ e, findEvaluation db evalId = some e ∧ e.completionTime.isSome = true) :
    (submit_evaluation db evalId scores overallRating comments answers now).1 = db ∧
    (submit_evaluation db evalId scores overallRating comments answers now).2.1 = false ∧
    ((∃ e, findEvaluation db evalId = some e ∧ e.completionTime.isSome = true) →
      (submit_evaluation db evalId scores overallRating comments answers now).2.2 =
        "Evaluation ID " ++ toString evalId ++ " already completed") := by
  unfold submit_evaluation
  rcases h with hnone | ⟨e, hsome, hc⟩
  · refine ⟨?_, ?_, ?_⟩
    · simp only [hnone]
    · simp only [hnone]
    · rintro ⟨e, hsome, -⟩
      rw [hnone] at hsome
      cases hsome
  · simp only [hsome]
    rw [if_pos hc]
    exact ⟨rfl, rfl, fun _ => rfl⟩

/-- Already-completed evaluation used in the C4 witness database. -/
def exEvalC4 : Evaluation :=
  { id := 1, evaluatorId := 1, contentId := 1, startTime := 0,
    completionTime := some 50, durationSeconds := some 50 }

/-- Witness database for C4. -/
def exDbC4 : Db :=
  { users := [], contents := [],
    criteria := [{ id := 1, name := "accuracy", scaleMin := 1, scaleMax := 5 }],
    evaluations := [exEvalC4], scores := [], questions := [], nextEvalId := 2 }

/-- Witness for C4: resubmitting the completed evaluation fails with the
already-completed message and leaves the database untouched. -/
theorem C4_submit_completed_no_mutation_witness :
    (submit_evaluation exDbC4 1 [(1, 4)] 4 none [] 100).1 = exDbC4 ∧
    (submit_evaluation exDbC4 1 [(1, 4)] 4 none [] 100).2.1 = false ∧
    (submit_evaluation exDbC4 1 [(1, 4)] 4 none [] 100).2.2 =
      "Evaluation ID " ++ toString 1 ++ " already completed" := by
  obtain ⟨h1, h2, h3⟩ := C4_submit_completed_no_mutation exDbC4 1 [(1, 4)] 4 none [] 100
    (Or.inr ⟨exEvalC4, rfl, rfl⟩)
  exact ⟨h1, h2, h3 ⟨exEvalC4, rfl, rfl⟩⟩

/-- A list searched without a hit can be extended on the right: the
search continues in the extension. -/
theorem find?_append_of_none {α : Type} (p : α → Bool) (l₁ l₂ : List α)
    (h : l₁.find? p = none) : (l₁ ++ l₂).find? p = l₂.find? p := by
  induction l₁ with
  | nil => rfl
  | cons a t ih =>
    by_cases ha : p a = true
    · simp only [List.find?_cons, ha] at h
      cases h
    · rw [Bool.not_eq_true] at ha
      simp only [List.find?_cons, ha] at h
      rw [List.cons_append]
      simp only [List.find?_cons, ha]
      exact ih h

/-- When the (evaluator, content) pair already has a row,
start_evaluation returns its id and leaves the database unchanged
(evaluator.py lines 130-138). -/
theorem start_evaluation_found (db : Db) (userId contentId : Nat) (now : Int)
    (u : User) (hu : findUser db userId = some u)
    (c : Content) (hc : findContent db contentId = some c)
    (ex : Evaluation)
    (hfind : db.evaluations.find?
      (fun e => e.evaluatorId == userId && e.contentId == contentId) = some ex) :
    start_evaluation db userId contentId now = (db, some ex.id) := by
  unfold start_evaluation
  simp only [hu, hc, hfind]

/-- The fresh pending row start_evaluation creates (evaluator.py lines
141-145). -/
def newEvalRow (db : Db) (userId contentId : Nat) (now : Int) : Evaluation :=
  { id := db.nextEvalId, evaluatorId := userId, contentId := contentId,
    startTime := now }

/-- The database after start_evaluation inserts the fresh row. -/
def dbAfterInsert (db : Db) (userId contentId : Nat) (now : Int) : Db :=
  { db with
      evaluations := db.evaluations ++ [newEvalRow db userId contentId now],
      nextEvalId := db.nextEvalId + 1 }

/-- When the pair has no row, start_evaluation appends a fresh pending row
carrying the next id (evaluator.py lines 140-151). -/
theorem start_evaluation_not_found (db : Db) (userId contentId : Nat) (now : Int)
    (u : User) (hu : findUser db userId = some u)
    (c : Content) (hc : findContent db contentId = some c)
    (hfind : db.evaluations.find?
      (fun e => e.evaluatorId == userId && e.contentId == contentId) = none) :
    start_evaluation db userId contentId now =
      (dbAfterInsert db userId contentId now, some db.nextEvalId) := by
  unfold start_evaluation dbAfterInsert newEvalRow
  simp only [hu, hc, hfind]

/-- C3: starting an evaluation twice for the same existing (user, content)
pair returns the same id both times, the second call changes nothing, and
exactly one row for the pair remains. -/
theorem C3_start_evaluation_idempotent (db : Db) (userId contentId : Nat)
    (t1 t2 : Int) (u : User) (hu : findUser db userId = some u)
    (c : Content) (hc : findContent db contentId = some c)
    (hcount : pairCount db userId contentId ≤ 1) :
    ((start_evaluation db userId contentId t1).2).isSome = true ∧
    (start_evaluation (start_evaluation db userId contentId t1).1 userId contentId t2).2 =
      (start_evaluation db userId contentId t1).2 ∧
    (start_evaluation (start_evaluation db userId contentId t1).1 userId contentId t2).1 =
      (start_evaluation db userId contentId t1).1 ∧
    pairCount (start_evaluation db userId contentId t1).1 userId contentId = 1 := by
  rcases hfind : db.evaluations.find?
      (fun e => e.evaluatorId == userId && e.contentId == contentId) with _ | ex
  · have hzero : pairCount db userId contentId = 0 := by
      rw [pairCount, List.countP_eq_zero]
      intro a ha
      have hnot := List.find?_eq_none.mp hfind a ha
      simpa using hnot
    have h1 := start_evaluation_not_found db userId contentId t1 u hu c hc hfind
    have hfst : (start_evaluation db userId contentId t1).1 =
        dbAfterInsert db userId contentId t1 := by rw [h1]
    have hsnd : (start_evaluation db userId contentId t1).2 =
        some db.nextEvalId := by rw [h1]
    have hprednew : ((newEvalRow db userId contentId t1).evaluatorId == userId &&
        (newEvalRow db userId contentId t1).contentId == contentId) = true := by
      simp [newEvalRow]
    have hfind1 : (dbAfterInsert db userId contentId t1).evaluations.find?
        (fun e => e.evaluatorId == userId && e.contentId == contentId) =
        some (newEvalRow db userId contentId t1) := by
      show (db.evaluations ++ [newEvalRow db userId contentId t1]).find?
        (fun e => e.evaluatorId == userId && e.contentId == contentId) =
        some (newEvalRow db userId contentId t1)
      rw [find?_append_of_none _ _ _ hfind]
      rw [List.find?_cons, hprednew]
    have hu1 : findUser (dbAfterInsert db userId contentId t1) userId = some u := hu
    have hc1 : findContent (dbAfterInsert db userId contentId t1) contentId = some c := hc
    have h2 := start_evaluation_found (dbAfterInsert db userId contentId t1)
      userId contentId t2 u hu1 c hc1 _ hfind1
    refine ⟨?_, ?_, ?_, ?_⟩
    · rw [hsnd]
      rfl
    · rw [hfst, h2, hsnd]
      rfl
    · rw [hfst, h2]
    · rw [hfst]
      show (db.evaluations ++ [newEvalRow db userId contentId t1]).countP
        (fun e => e.evaluatorId == userId && e.contentId == contentId) = 1
      rw [List.countP_append]
      have hz : db.evaluations.countP
          (fun e => e.evaluatorId == userId && e.contentId == contentId) = 0 := hzero
      rw [hz]
      simp [List.countP_cons, hprednew]
  · have h1 := start_evaluation_found db userId contentId t1 u hu c hc ex hfind
    have hfst : (start_evaluation db userId contentId t1).1 = db := by rw [h1]
    have hsnd : (start_evaluation db userId contentId t1).2 = some ex.id := by rw [h1]
    have h2 := start_evaluation_found db userId contentId t2 u hu c hc ex hfind
    have hpos : 0 < pairCount db userId contentId := by
      rw [pairCount]
      apply List.countP_pos_iff.mpr
      have hmem := List.mem_of_find?_eq_some hfind
      have hpred := List.find?_some hfind
      exact ⟨ex, hmem, hpred⟩
    refine ⟨?_, ?_, ?_, ?_⟩
    · rw [hsnd]
      rfl
    · rw [hfst, h2, hsnd]
    · rw [hfst, h2]
    · rw [hfst]
      omega

/-- User row for the C3 witness database. -/
def exUserC3 : User := { id := 1, username := "alice" }

/-- Content row for the C3 witness database. -/
def exContentC3 : Content :=
  { id := 1, title := "t", text := "hello", domain := "news_articles", sourceType := "ai" }

/-- Witness database for C3: the user has not evaluated the content yet. -/
def exDbC3 : Db :=
  { users := [exUserC3], contents := [exContentC3], criteria := [],
    evaluations := [], scores := [], questions := [], nextEvalId := 1 }

/-- Witness for C3 at a concrete database. -/
theorem C3_start_evaluation_idempotent_witness :
    ((start_evaluation exDbC3 1 1 0).2).isSome = true ∧
    (start_evaluation (start_evaluation exDbC3 1 1 0).1 1 1 7).2 =
      (start_evaluation exDbC3 1 1 0).2 ∧
    (start_evaluation (start_evaluation exDbC3 1 1 0).1 1 1 7).1 =
      (start_evaluation exDbC3 1 1 0).1 ∧
    pairCount (start_evaluation exDbC3 1 1 0).1 1 1 = 1 :=
  C3_start_evaluation_idempotent exDbC3 1 1 0 7 exUserC3 rfl exContentC3 rfl
    (by decide)

/-- Score rows attached to one evaluation (quality_control.py lines 338-340). -/
def scoresForEvaluation (db : Db) (evalId : Nat) : List EvaluationScore :=
  db.scores.filter (fun s => s.evaluationId == evalId)

/-- The straight-line test of the flagging loop (quality_control.py lines
342-345): at least two scores, all equal to the first. -/
def isStraightLine (scores : List EvaluationScore) : Bool :=
  match scores with
  | [] => false
  | first :: _ =>
    decide (2 ≤ scores.length) && scores.all (fun s => s.score == first.score)

/-- The duration flag of the flagging loop (quality_control.py line 330).
The source guard is `evaluation.duration_seconds and
evaluation.duration_seconds < MIN_EVALUATION_TIME_SECONDS`: Python
truthiness makes a missing or zero duration skip the flag. -/
def fastCompletionFlags (e : Evaluation) : List String :=
  match e.durationSeconds with
  | none => []
  | some d =>
    if d ≠ 0 ∧ d < MIN_EVALUATION_TIME_SECONDS then
      ["Fast completion: " ++ toString d ++ " seconds"]
    else []

/-- All flags raised for one evaluation, in source order (quality_control.py
lines 327-345). -/
def evalFlags (db : Db) (e : Evaluation) : List String :=
  fastCompletionFlags e ++
  (if e.passedQualityChecks == some false then ["Failed quality checks"] else []) ++
  (if isStraightLine (scoresForEvaluation db e.id) then ["Straight-line scoring"] else [])

/-- One entry of the flagged-evaluations result (quality_control.py lines
349-355); the isoformat timestamp is omitted from the model. -/
structure FlagRecord where
  evaluationId : Nat
  evaluatorId : Nat
  contentId : Nat
  flags : List String
deriving Repr, DecidableEq

/-- Embeds `QualityController.flag_low_quality_evaluations`
(quality_control.py lines 311-357). -/
def flag_low_quality_evaluations (db : Db) : List FlagRecord :=
  (db.evaluations.filter (fun e => e.completionTime.isSome)).filterMap (fun e =>
    if (evalFlags db e).isEmpty then none
    else some { evaluationId := e.id, evaluatorId := e.evaluatorId,
                contentId := e.contentId, flags := evalFlags db e })

/-- Completed evaluation with a zero-second duration. -/
def exEvalC5 : Evaluation :=
  { id := 1, evaluatorId := 1, contentId := 1, startTime := 0,
    completionTime := some 0, durationSeconds := some 0,
    passedQualityChecks := some true }

/-- Database whose only completed evaluation took zero seconds. -/
def exDbC5 : Db :=
  { users := [], contents := [], criteria := [], evaluations := [exEvalC5],
    scores := [], questions := [], nextEvalId := 2 }

/-- C5 as stated is false: this completed evaluation has
duration_seconds = 0, which is below MIN_EVALUATION_TIME_SECONDS, yet the
scan returns no record at all, because the source guards the duration flag
behind Python truthiness and 0 is falsy. -/
theorem C5_flag_low_quality_counterexample :
    exEvalC5 ∈ exDbC5.evaluations ∧
    exEvalC5.completionTime.isSome = true ∧
    exEvalC5.durationSeconds = some 0 ∧
    (0 : Int) < MIN_EVALUATION_TIME_SECONDS ∧
    flag_low_quality_evaluations exDbC5 = [] := by decide

/-- The record ids of the scan are the ids of the flagged completed
evaluations, in order. -/
theorem flag_records_map_id (db : Db) :
    (flag_low_quality_evaluations db).map FlagRecord.evaluationId =
    ((db.evaluations.filter (fun e => e.completionTime.isSome)).filter
      (fun e => !(evalFlags db e).isEmpty)).map Evaluation.id := by
  unfold flag_low_quality_evaluations
  generalize db.evaluations.filter (fun e => e.completionTime.isSome) = l
  induction l with
  | nil => rfl
  | cons a t ih =>
    by_cases hemp : (evalFlags db a).isEmpty = true
    · rw [List.filterMap_cons, if_pos hemp, List.filter_cons,
        if_neg (by simp [hemp])]
      exact ih
    · rw [List.filterMap_cons, if_neg hemp, List.filter_cons,
        if_pos (by simp [Bool.not_eq_true] at hemp ⊢; exact hemp)]
      rw [List.map_cons, List.map_cons]
      rw [ih]

/-- Counting one id in a table whose ids are distinct. -/
theorem countP_id_of_nodup (l : List Evaluation) (e : Evaluation)
    (he : e ∈ l) (hnodup : (l.map Evaluation.id).Nodup) (P : Evaluation → Bool) :
    l.countP (fun a => (a.id == e.id) && P a) = if P e then 1 else 0 := by
  induction l with
  | nil => cases he
  | cons a t ih =>
    rw [List.map_cons, List.nodup_cons] at hnodup
    obtain ⟨hna, hnt⟩ := hnodup
    rw [List.countP_cons]
    rcases List.mem_cons.mp he with heq | het
    · subst heq
      have hz : t.countP (fun a => (a.id == e.id) && P a) = 0 := by
        rw [List.countP_eq_zero]
        intro b hb hcontra
        rw [Bool.and_eq_true, beq_iff_eq] at hcontra
        apply hna
        rw [← hcontra.1]
        exact List.mem_map_of_mem Evaluation.id hb
      rw [hz]
      simp
    · have hne : (a.id == e.id) = false := by
        rw [beq_eq_false_iff_ne]
        intro hcontra
        apply hna
        rw [hcontra]
        exact List.mem_map_of_mem Evaluation.id het
      rw [ih het hnt]
      simp [hne]

/-- Raised flags land in the flag list: the duration flag. -/
theorem fast_mem_evalFlags (db : Db) (e : Evaluation) (d : Int)
    (hd : e.durationSeconds = some d) (h0 : d ≠ 0)
    (hlt : d < MIN_EVALUATION_TIME_SECONDS) :
    ("Fast completion: " ++ toString d ++ " seconds") ∈ evalFlags db e := by
  unfold evalFlags fastCompletionFlags
  simp only [hd]
  have hcond : d ≠ 0 ∧ d < MIN_EVALUATION_TIME_SECONDS := ⟨h0, hlt⟩
  rw [if_pos hcond]
  simp

/-- Raised flags land in the flag list: the failed-quality-checks flag. -/
theorem failed_mem_evalFlags (db : Db) (e : Evaluation)
    (hp : e.passedQualityChecks = some false) :
    "Failed quality checks" ∈ evalFlags db e := by
  unfold evalFlags
  rw [hp]
  simp

/-- Raised flags land in the flag list: the straight-line flag. -/
theorem straight_mem_evalFlags (db : Db) (e : Evaluation)
    (hs : isStraightLine (scoresForEvaluation db e.id) = true) :
    "Straight-line scoring" ∈ evalFlags db e := by
  unfold evalFlags
  rw [hs]
  simp

/-- Every record of the scan comes from a flagged completed evaluation and
carries exactly its flag list. -/
theorem mem_flag_records (db : Db) (r : FlagRecord) :
    r ∈ flag_low_quality_evaluations db ↔
    ∃ e, e ∈ db.evaluations ∧ e.completionTime.isSome = true ∧
      (evalFlags db e).isEmpty = false ∧
      r = { evaluationId := e.id, evaluatorId := e.evaluatorId,
            contentId := e.contentId, flags := evalFlags db e } := by
  unfold flag_low_quality_evaluations
  rw [List.mem_filterMap]
  constructor
  · rintro ⟨e, he, hf⟩
    rw [List.mem_filter] at he
    by_cases hemp : (evalFlags db e).isEmpty = true
    · rw [if_pos hemp] at hf
      cases hf
    · rw [if_neg hemp] at hf
      injection hf with hf
      rw [Bool.not_eq_true] at hemp
      exact ⟨e, he.1, he.2, hemp, hf.symm⟩
  · rintro ⟨e, hmem, hcomp, hemp, hr⟩
    refine ⟨e, List.mem_filter.mpr ⟨hmem, hcomp⟩, ?_⟩
    rw [if_neg (by rw [hemp]; exact Bool.false_ne_true)]
    rw [hr]

/-- C5 amended: in a database with distinct evaluation ids, the scan emits
exactly one record per completed evaluation with at least one flag (and
none for unflagged ones); a record carries the duration flag whenever the
stored duration is nonzero and below 60 (the Python truthiness guard
excludes a zero or missing duration), the failed-checks flag whenever
passed_quality_checks is false, and the straight-line flag whenever at
least two identical scores exist; and every record stems from such a
flagged completed evaluation. -/
theorem C5_flag_low_quality_amended (db : Db)
    (hids : (db.evaluations.map Evaluation.id).Nodup) :
    (∀ e ∈ db.evaluations, e.completionTime.isSome = true →
      ((flag_low_quality_evaluations db).countP (fun r => r.evaluationId == e.id) =
        if (evalFlags db e).isEmpty then 0 else 1) ∧
      (∀ r ∈ flag_low_quality_evaluations db, r.evaluationId = e.id →
        ((∀ d, e.durationSeconds = some d → d ≠ 0 →
            d < MIN_EVALUATION_TIME_SECONDS →
            ("Fast completion: " ++ toString d ++ " seconds") ∈ r.flags) ∧
          (e.passedQualityChecks = some false →
            "Failed quality checks" ∈ r.flags) ∧
          (isStraightLine (scoresForEvaluation db e.id) = true →
            "Straight-line scoring" ∈ r.flags)))) ∧
    (∀ r ∈ flag_low_quality_evaluations db, ∃ e, e ∈ db.evaluations ∧
      e.completionTime.isSome = true ∧ (evalFlags db e).isEmpty = false ∧
      r.flags = evalFlags db e) := by
  constructor
  · intro e hmem hcomp
    constructor
    · have h1 : (flag_low_quality_evaluations db).countP
          (fun r => r.evaluationId == e.id) =
          ((flag_low_quality_evaluations db).map FlagRecord.evaluationId).countP
            (fun i => i == e.id) := by
        rw [List.countP_map]
        rfl
      rw [h1, flag_records_map_id]
      rw [List.countP_map]
      have h2 : ((db.evaluations.filter (fun a => a.completionTime.isSome)).filter
          (fun a => !(evalFlags db a).isEmpty)).countP
            ((fun i => i == e.id) ∘ Evaluation.id) =
          db.evaluations.countP (fun a => (a.id == e.id) &&
            (!(evalFlags db a).isEmpty && a.completionTime.isSome)) := by
        rw [List.countP_filter, List.countP_filter]
        apply List.countP_congr
        intro a _
        simp only [Function.comp]
        rw [Bool.and_assoc]
      rw [h2]
      rw [countP_id_of_nodup db.evaluations e hmem hids]
      rw [hcomp]
      rcases hflags : (evalFlags db e).isEmpty with _ | _
      · simp
      · simp
    · intro r hr hrid
      obtain ⟨e', hmem', hcomp', hflags', hr'⟩ := (mem_flag_records db r).mp hr
      have hid : e' = e := by
        have hide : e'.id = e.id := by
          rw [hr'] at hrid
          exact hrid
        have hinj := List.inj_on_of_nodup_map hids
        exact hinj hmem' hmem hide
      subst hid
      have hfl : r.flags = evalFlags db e' := by rw [hr']
      refine ⟨?_, ?_, ?_⟩
      · intro d hd h0 hlt
        rw [hfl]
        exact fast_mem_evalFlags db e' d hd h0 hlt
      · intro hp
        rw [hfl]
        exact failed_mem_evalFlags db e' hp
      · intro hs
        rw [hfl]
        exact straight_mem_evalFlags db e' hs
  · intro r hr
    obtain ⟨e, hmem, hcomp, hflags, hr'⟩ := (mem_flag_records db r).mp hr
    exact ⟨e, hmem, hcomp, hflags, by rw [hr']⟩

/-- Runtime tag distinguishing a Python float from any other value, as
tested by `isinstance(target_score, float)` in analytics.py line 620. -/
inductive PyNum where
  | float (q : ℚ)
  | nonFloat
deriving Repr, DecidableEq

/-- The suggestion dictionary built by
`AnalyticsEngine._create_improvement_suggestion`. -/
structure Suggestion where
  modelName : String
  criterion : String
  currentScore : ℚ
  targetScore : PyNum
  priority : String
  domain : Option String
  suggestion : String
deriving Repr, DecidableEq

/-- Two-decimal formatting, the Lean counterpart of Python `"%.2f" % q`
applied to an exact rational. -/
def formatTwoDecimals (q : ℚ) : String :=
  let n : Int := round (q * 100)
  let sign := if n < 0 then "-" else ""
  let m := n.natAbs
  let ip := m / 100
  let fp := m % 100
  sign ++ toString ip ++ "." ++ (if fp < 10 then "0" else "") ++ toString fp

/-- The per-criterion canned improvement tips (analytics.py lines 649-660). -/
def criterionTip (criterion : String) : String :=
  if strLower criterion = "accuracy" then
    " Enhance factual correctness by improving source validation and fact-checking processes."
  else if strLower criterion = "coherence" then
    " Improve logical flow and narrative consistency by strengthening contextual awareness across longer texts."
  else if strLower criterion = "relevance" then
    " Improve focus on provided topics by enhancing prompt understanding and topic adherence mechanisms."
  else if strLower criterion = "creativity" then
    " Increase originality by expanding the model\x27s diverse expression patterns and reducing repetitive structures."
  else if strLower criterion = "completeness" then
    " Ensure comprehensive coverage of subjects by improving the model\x27s thoroughness in addressing all aspects of a topic."
  else if strLower criterion = "language_quality" then
    " Enhance grammar, vocabulary and writing style by refining linguistic patterns and reducing awkward phrasing."
  else ""

/-- Embeds `AnalyticsEngine._create_improvement_suggestion` (analytics.py
lines 597-663).  The source line 620 initializes `target_formatted` with a
conditional whose first branch formats `target_formatted` itself instead
of `target_score`; when `target_score` is a float that branch runs and
reads the still-unassigned local, raising UnboundLocalError before any
suggestion is built.  The crash is modelled as `none`.  Every call site in
`identify_improvement_areas` passes a benchmark average produced by float
division, so the float branch is always the one taken there. -/
def createImprovementSuggestion (modelName : String) (domain : Option String)
    (criterion : String) (currentScore : ℚ) (targetScore : PyNum) :
    Option Suggestion :=
  let currentFormatted := formatTwoDecimals currentScore
  match targetScore with
  | PyNum.float _ => none
  | PyNum.nonFloat =>
    let targetFormatted := "N/A"
    let scoreGap : ℚ := 0
    let priority :=
      if 1 ≤ scoreGap then "high" else if 1 / 2 ≤ scoreGap then "medium" else "low"
    let baseText := "Improve " ++ criterion ++ " " ++
      (match domain with
       | some d => "in " ++ d ++ " content "
       | none => "") ++
      "from " ++ currentFormatted ++ " to " ++ targetFormatted ++ "."
    some { modelName := modelName, criterion := criterion,
           currentScore := currentScore, targetScore := targetScore,
           priority := priority, domain := domain,
           suggestion := baseText ++ criterionTip criterion }

/-- C2: evaluated at a concrete flagged gap (criterion mean 3.0 against a
benchmark mean of 4.0, a gap of 1.0 at the default threshold 0.3), the
suggestion builder crashes — it returns no suggestion at all, so nothing
carries a priority or text and nothing is persisted. -/
theorem C2_create_suggestion_crashes :
    createImprovementSuggestion "gpt-x" none "accuracy" 3 (PyNum.float 4) = none := rfl

/-- The lowercase alphabet of `generate_password` (utils.py line 378). -/
def lowercaseChars : List Char := "abcdefghijklmnopqrstuvwxyz".toList

/-- The uppercase alphabet of `generate_password` (utils.py line 379). -/
def uppercaseChars : List Char := "ABCDEFGHIJKLMNOPQRSTUVWXYZ".toList

/-- The digits of `generate_password` (utils.py line 380). -/
def digitChars : List Char := "0123456789".toList

/-- The fixed punctuation set of `generate_password` (utils.py line 381). -/
def specialChars : List Char := "!@#$%^&*()-_=+[]\x7b\x7d|;:,.<>?".toList

/-- The combined alphabet (utils.py line 392). -/
def allChars : List Char := lowercaseChars ++ uppercaseChars ++ digitChars ++ specialChars

/-- Pseudo-random source: a stream of naturals and a cursor; each draw
consumes one stream element reduced modulo the requested bound. -/
structure Rng where
  stream : Nat → Nat
  pos : Nat

/-- One bounded draw from the stream. -/
def randBelow (r : Rng) (n : Nat) : Nat × Rng :=
  (r.stream r.pos % n, { stream := r.stream, pos := r.pos + 1 })

/-- Models `random.choice`: one uniformly drawn element of a list. -/
def choice (l : List Char) (r : Rng) : Char × Rng :=
  let p := randBelow r l.length
  (l.getD p.1 'a', p.2)

/-- Models the fill loop `random.choice(all_chars) for _ in
range(length - 4)` (utils.py line 393); a negative Python range is empty,
matching truncated Nat subtraction. -/
def fillRandom : Nat → Rng → List Char × Rng
  | 0, r => ([], r)
  | n + 1, r =>
    let p := choice allChars r
    let q := fillRandom n p.2
    (p.1 :: q.1, q.2)

/-- Fuel-indexed body of the shuffle: extract a randomly chosen element,
recurse on the rest. -/
def shuffleAux : Nat → List Char → Rng → List Char × Rng
  | 0, _, r => ([], r)
  | _ + 1, [], r => ([], r)
  | n + 1, a :: t, r =>
    let p := randBelow r (a :: t).length
    let x := (a :: t).getD p.1 'a'
    let rest := shuffleAux n ((a :: t).eraseIdx p.1) p.2
    (x :: rest.1, rest.2)

/-- Models `random.shuffle` (utils.py line 396): a uniformly random
permutation of the list, driven by the stream. -/
def shuffleList (l : List Char) (r : Rng) : List Char × Rng :=
  shuffleAux l.length l r

/-- Embeds `generate_password` (utils.py lines 367-398). -/
def generate_password (length : Nat) (r : Rng) : String × Rng :=
  let p1 := choice lowercaseChars r
  let p2 := choice uppercaseChars p1.2
  let p3 := choice digitChars p2.2
  let p4 := choice specialChars p3.2
  let pf := fillRandom (length - 4) p4.2
  let password := p1.1 :: p2.1 :: p3.1 :: p4.1 :: pf.1
  let sh := shuffleList password pf.2
  (String.mk sh.1, sh.2)

/-- An arbitrary concrete random source. -/
def zeroRng : Rng := { stream := fun _ => 0, pos := 0 }

/-- C9 as stated is false: requesting a password of length 3 returns a
string of length 4, because the mandatory four class characters are always
placed and the fill range is empty for lengths below 4. -/
theorem C9_generate_password_counterexample :
    (generate_password 3 zeroRng).1.length ≠ 3 ∧
    (generate_password 3 zeroRng).1.length = 4 := by decide

/-- The fill loop produces exactly the requested number of characters. -/
theorem fillRandom_length (n : Nat) (r : Rng) : (fillRandom n r).1.length = n := by
  induction n generalizing r with
  | zero => rfl
  | succ n ih =>
    unfold fillRandom
    simp [ih]

/-- A drawn element belongs to the non-empty list it is drawn from. -/
theorem choice_mem (l : List Char) (r : Rng) (h : l ≠ []) : (choice l r).1 ∈ l := by
  have hpos : 0 < l.length := List.length_pos.mpr h
  have hlt : r.stream r.pos % l.length < l.length := Nat.mod_lt _ hpos
  show l.getD (r.stream r.pos % l.length) 'a' ∈ l
  have hgetd : l.getD (r.stream r.pos % l.length) 'a' =
      l.get ⟨r.stream r.pos % l.length, hlt⟩ := by
    rw [List.getD_eq_getElem l 'a' hlt]
    rfl
  rw [hgetd]
  exact l.get_mem _ _

/-- Extracting the element at a valid index and putting it in front is a
permutation of the original list. -/
theorem getD_cons_eraseIdx_perm (l : List Char) (i : Nat) (h : i < l.length) :
    (l.getD i 'a' :: l.eraseIdx i).Perm l := by
  have hgetd : l.getD i 'a' = l[i] := List.getD_eq_getElem l 'a' h
  rw [hgetd]
  have h1 := List.perm_cons_erase (List.getElem_mem h)
  have h2 := List.erase_getElem h
  exact ((h1.trans (h2.cons l[i]))).symm

/-- The shuffle with sufficient fuel permutes its input. -/
theorem shuffleAux_perm (n : Nat) : ∀ (l : List Char) (r : Rng),
    l.length ≤ n → ((shuffleAux n l r).1).Perm l := by
  induction n with
  | zero =>
    intro l r h
    rw [List.eq_nil_of_length_eq_zero (Nat.le_zero.mp h)]
    exact List.Perm.refl _
  | succ n ih =>
    intro l r h
    match l with
    | [] => exact List.Perm.refl _
    | a :: t =>
      have hpos : 0 < (a :: t).length := by simp
      have hlt : r.stream r.pos % (a :: t).length < (a :: t).length :=
        Nat.mod_lt _ hpos
      have hlen : ((a :: t).eraseIdx (r.stream r.pos % (a :: t).length)).length ≤ n := by
        have h2 := List.length_eraseIdx_add_one hlt
        omega
      have hrec := ih ((a :: t).eraseIdx (r.stream r.pos % (a :: t).length))
        { stream := r.stream, pos := r.pos + 1 } hlen
      show ((a :: t).getD (r.stream r.pos % (a :: t).length) 'a' ::
        (shuffleAux n ((a :: t).eraseIdx (r.stream r.pos % (a :: t).length))
          { stream := r.stream, pos := r.pos + 1 }).1).Perm (a :: t)
      exact (hrec.cons _).trans (getD_cons_eraseIdx_perm (a :: t) _ hlt)

/-- The shuffled password is a permutation of the built character list. -/
theorem shuffleList_perm (l : List Char) (r : Rng) :
    ((shuffleList l r).1).Perm l :=
  shuffleAux_perm l.length l r (le_refl _)

/-- C9 amended: for every requested length of at least 4 and every random
source, the password has exactly the requested length and contains at
least one lowercase letter, one uppercase letter, one digit, and one
symbol of the fixed punctuation set. -/
theorem C9_generate_password_amended (length : Nat) (r : Rng)
    (h : 4 ≤ length) :
    (generate_password length r).1.length = length ∧
    (∃ ch ∈ (generate_password length r).1.data, ch ∈ lowercaseChars) ∧
    (∃ ch ∈ (generate_password length r).1.data, ch ∈ uppercaseChars) ∧
    (∃ ch ∈ (generate_password length r).1.data, ch ∈ digitChars) ∧
    (∃ ch ∈ (generate_password length r).1.data, ch ∈ specialChars) := by
  have hperm : ((generate_password length r).1.data).Perm
      ((choice lowercaseChars r).1 ::
        (choice uppercaseChars (choice lowercaseChars r).2).1 ::
        (choice digitChars (choice uppercaseChars (choice lowercaseChars r).2).2).1 ::
        (choice specialChars
          (choice digitChars (choice uppercaseChars (choice lowercaseChars r).2).2).2).1 ::
        (fillRandom (length - 4)
          (choice specialChars
            (choice digitChars
              (choice uppercaseChars (choice lowercaseChars r).2).2).2).2).1) :=
    shuffleList_perm _ _
  have hc1 := choice_mem lowercaseChars r (by decide)
  have hc2 := choice_mem uppercaseChars (choice lowercaseChars r).2 (by decide)
  have hc3 := choice_mem digitChars
    (choice uppercaseChars (choice lowercaseChars r).2).2 (by decide)
  have hc4 := choice_mem specialChars
    (choice digitChars (choice uppercaseChars (choice lowercaseChars r).2).2).2
    (by decide)
  refine ⟨?_, ?_, ?_, ?_, ?_⟩
  · show (generate_password length r).1.data.length = length
    rw [hperm.length_eq]
    simp only [List.length_cons, fillRandom_length]
    omega
  · exact ⟨_, hperm.mem_iff.mpr (by simp), hc1⟩
  · exact ⟨_, hperm.mem_iff.mpr (by simp), hc2⟩
  · exact ⟨_, hperm.mem_iff.mpr (by simp), hc3⟩
  · exact ⟨_, hperm.mem_iff.mpr (by simp), hc4⟩

/-- Witness for the amended C9 at the default length 12 and a concrete
random source. -/
theorem C9_generate_password_amended_witness :
    (generate_password 12 zeroRng).1.length = 12 ∧
    (∃ ch ∈ (generate_password 12 zeroRng).1.data, ch ∈ lowercaseChars) ∧
    (∃ ch ∈ (generate_password 12 zeroRng).1.data, ch ∈ uppercaseChars) ∧
    (∃ ch ∈ (generate_password 12 zeroRng).1.data, ch ∈ digitChars) ∧
    (∃ ch ∈ (generate_password 12 zeroRng).1.data, ch ∈ specialChars) :=
  C9_generate_password_amended 12 zeroRng (by decide)

/-- Completed evaluation with a 30-second duration, flagged as fast. -/
def exEvalC5w : Evaluation :=
  { id := 1, evaluatorId := 1, contentId := 1, startTime := 0,
    completionTime := some 30, durationSeconds := some 30,
    passedQualityChecks := some true }

/-- Witness database for the amended C5. -/
def exDbC5w : Db :=
  { users := [], contents := [], criteria := [], evaluations := [exEvalC5w],
    scores := [], questions := [], nextEvalId := 2 }

/-- Witness for the amended C5: the 30-second evaluation gets exactly one
record. -/
theorem C5_flag_low_quality_amended_witness :
    (flag_low_quality_evaluations exDbC5w).countP
      (fun r => r.evaluationId == exEvalC5w.id) =
      if (evalFlags exDbC5w exEvalC5w).isEmpty then 0 else 1 :=
  ((C5_flag_low_quality_amended exDbC5w (by decide)).1 exEvalC5w (by decide)
    (by decide)).1

/-- Mean of a list of rational scores (quality_control.py line 284). -/
def scoresMean (qs : List ℚ) : ℚ := qs.sum / qs.length

/-- Population variance of a list of rational scores (quality_control.py
line 285). -/
def scoresVariance (qs : List ℚ) : ℚ :=
  ((qs.map (fun s => (s - scoresMean qs) ^ 2)).sum) / qs.length

/-- Per-criterion agreement (quality_control.py lines 283-297): one minus
the population standard deviation normalized by the scale range, clamped
at zero; a zero scale range short-circuits to 1. -/
noncomputable def criterionAgreement (criterion : EvaluationCriterion)
    (criterionScores : List ℚ) : ℝ :=
  if criterion.scaleMax - criterion.scaleMin = 0 then 1
  else
    max 0 (1 - Real.sqrt ((scoresVariance criterionScores : ℚ) : ℝ) /
      ((criterion.scaleMax - criterion.scaleMin : Int) : ℝ))

/-- Order-preserving list of the distinct criterion ids appearing in a
score list, mirroring the dict insertion order of the grouping loop
(quality_control.py lines 263-268). -/
def criterionIds (scores : List EvaluationScore) : List Nat :=
  scores.foldl
    (fun acc s => if acc.contains s.criterionId then acc else acc ++ [s.criterionId]) []

/-- The agreement analysis result (quality_control.py lines 303-309); the
status strings are carried by the Option wrapper. -/
structure AgreementResult where
  overallAgreement : ℝ
  agreementByCriterion : List (String × ℝ)
  evaluatorCount : Nat

/-- Configuration constant AGREEMENT_THRESHOLD (config.py). -/
noncomputable def AGREEMENT_THRESHOLD : ℝ := 7 / 10

/-- The meets_threshold field of the result (quality_control.py line 307). -/
noncomputable def meetsThreshold (result : AgreementResult) : Prop :=
  result.overallAgreement ≥ AGREEMENT_THRESHOLD

/-- Embeds `QualityController.calculate_inter_rater_agreement`
(quality_control.py lines 236-309); `none` is the insufficient-evaluations
early return. -/
noncomputable def calculate_inter_rater_agreement (db : Db) (contentId : Nat) :
    Option AgreementResult :=
  let evals := db.evaluations.filter
    (fun e => e.contentId == contentId && e.completionTime.isSome)
  if evals.length < 2 then none
  else
    let evalIds := evals.map Evaluation.id
    let scores := db.scores.filter (fun s => evalIds.contains s.evaluationId)
    let entries := (criterionIds scores).filterMap (fun cid =>
      if ((scores.filter (fun s => s.criterionId == cid)).map
          EvaluationScore.score).length < 2 then none
      else
        match findCriterion db cid with
        | none => none
        | some criterion =>
          some (criterion.name, criterionAgreement criterion
            ((scores.filter (fun s => s.criterionId == cid)).map
              EvaluationScore.score)))
    let agreements := entries.map Prod.snd
    let overall : ℝ :=
      if agreements.isEmpty then 0 else agreements.sum / (agreements.length : ℝ)
    some { overallAgreement := overall, agreementByCriterion := entries,
           evaluatorCount := evals.length }

/-- Per-criterion agreement always lies in the unit interval when the
scale is well-formed. -/
theorem criterionAgreement_bounds (criterion : EvaluationCriterion)
    (h : criterion.scaleMin ≤ criterion.scaleMax) (qs : List ℚ) :
    0 ≤ criterionAgreement criterion qs ∧ criterionAgreement criterion qs ≤ 1 := by
  unfold criterionAgreement
  by_cases h0 : criterion.scaleMax - criterion.scaleMin = 0
  · rw [if_pos h0]
    norm_num
  · rw [if_neg h0]
    have hrangepos : (0 : ℝ) < ((criterion.scaleMax - criterion.scaleMin : Int) : ℝ) := by
      have hgt : 0 < criterion.scaleMax - criterion.scaleMin := by omega
      exact_mod_cast hgt
    constructor
    · exact le_max_left 0 _
    · apply max_le
      · norm_num
      · have hsqrt : 0 ≤ Real.sqrt ((scoresVariance qs : ℚ) : ℝ) := Real.sqrt_nonneg _
        have hdiv : 0 ≤ Real.sqrt ((scoresVariance qs : ℚ) : ℝ) /
            ((criterion.scaleMax - criterion.scaleMin : Int) : ℝ) :=
          div_nonneg hsqrt hrangepos.le
        linarith

/-- All-identical scores have zero variance. -/
theorem scoresVariance_const (qs : List ℚ) (hne : qs ≠ [])
    (hconst : ∀ x ∈ qs, ∀ y ∈ qs, x = y) : scoresVariance qs = 0 := by
  match qs with
  | [] => exact absurd rfl hne
  | a :: t =>
    have hall : ∀ x ∈ a :: t, x = a :=
      fun x hx => hconst x hx a (List.mem_cons_self a t)
    have hlenpos : (0 : ℚ) < ((a :: t).length : ℚ) := by
      have : 0 < (a :: t).length := by simp
      exact_mod_cast this
    have hsum : (a :: t).sum = (a :: t).length • a := List.sum_eq_card_nsmul _ a hall
    have hmean : scoresMean (a :: t) = a := by
      unfold scoresMean
      rw [hsum, nsmul_eq_mul]
      exact mul_div_cancel_left₀ a (ne_of_gt hlenpos)
    have hzero : ((a :: t).map (fun s => (s - scoresMean (a :: t)) ^ 2)).sum = 0 := by
      apply List.sum_eq_zero
      intro x hx
      rw [List.mem_map] at hx
      obtain ⟨s, hs, hx⟩ := hx
      rw [← hx, hmean, hall s hs]
      ring
    unfold scoresVariance
    rw [hzero]
    exact zero_div _

/-- All-identical scores give perfect agreement. -/
theorem criterionAgreement_const (criterion : EvaluationCriterion)
    (qs : List ℚ) (hne : qs ≠ [])
    (hconst : ∀ x ∈ qs, ∀ y ∈ qs, x = y) :
    criterionAgreement criterion qs = 1 := by
  unfold criterionAgreement
  by_cases h0 : criterion.scaleMax - criterion.scaleMin = 0
  · rw [if_pos h0]
  · rw [if_neg h0, scoresVariance_const qs hne hconst]
    rw [Rat.cast_zero, Real.sqrt_zero, zero_div, sub_zero]
    exact max_eq_right (by norm_num)

/-- The overall agreement is the unweighted mean of the per-criterion
agreements as soon as one criterion qualifies. -/
theorem overall_mean_eq (entries : List (String × ℝ)) (hne : entries ≠ []) :
    (if (entries.map Prod.snd).isEmpty then (0 : ℝ)
     else (entries.map Prod.snd).sum / ((entries.map Prod.snd).length : ℝ)) =
    (entries.map Prod.snd).sum / (entries.length : ℝ) := by
  match entries, hne with
  | a :: t, _ =>
    simp [List.length_map]

/-- C7: with well-formed criterion scales and at least two completed
evaluations of the content, the analysis returns a result in which every
per-criterion agreement lies in [0, 1], identical scores yield agreement
exactly 1 (also when the scale range is 0), the overall agreement is the
unweighted mean of the per-criterion agreements, and meets_threshold holds
exactly when that mean is at least 0.7. -/
theorem C7_inter_rater_agreement (db : Db) (contentId : Nat)
    (hscale : ∀ c ∈ db.criteria, c.scaleMin ≤ c.scaleMax)
    (h2 : 2 ≤ (db.evaluations.filter
      (fun e => e.contentId == contentId && e.completionTime.isSome)).length) :
    ∃ result, calculate_inter_rater_agreement db contentId = some result ∧
      (∀ p ∈ result.agreementByCriterion, 0 ≤ p.2 ∧ p.2 ≤ 1) ∧
      (result.agreementByCriterion ≠ [] →
        result.overallAgreement =
          (result.agreementByCriterion.map Prod.snd).sum /
            (result.agreementByCriterion.length : ℝ)) ∧
      (meetsThreshold result ↔ result.overallAgreement ≥ 7 / 10) ∧
      (∀ criterion ∈ db.criteria, ∀ qs : List ℚ, qs ≠ [] →
        (∀ x ∈ qs, ∀ y ∈ qs, x = y) → criterionAgreement criterion qs = 1) := by
  unfold calculate_inter_rater_agreement
  rw [if_neg (not_lt.mpr h2)]
  refine ⟨_, rfl, ?_, ?_, Iff.rfl, ?_⟩
  · intro p hp
    rw [List.mem_filterMap] at hp
    obtain ⟨cid, -, hf⟩ := hp
    by_cases hlen : ((((db.scores.filter (fun s =>
        ((db.evaluations.filter (fun e => e.contentId == contentId &&
          e.completionTime.isSome)).map Evaluation.id).contains
            s.evaluationId)).filter (fun s => s.criterionId == cid)).map
        EvaluationScore.score).length < 2)
    · rw [if_pos hlen] at hf
      cases hf
    · rw [if_neg hlen] at hf
      rcases hcrit : findCriterion db cid with _ | criterion
      · rw [hcrit] at hf
        cases hf
      · rw [hcrit] at hf
        injection hf with hf
        rw [← hf]
        exact criterionAgreement_bounds criterion
          (hscale criterion (List.mem_of_find?_eq_some hcrit)) _
  · intro hne
    exact overall_mean_eq _ hne
  · intro criterion hmem qs hne hconst
    exact criterionAgreement_const criterion qs hne hconst

/-- First completed evaluation of content 1 for the C7 witness. -/
def exEvalC7a : Evaluation :=
  { id := 1, evaluatorId := 1, contentId := 1, startTime := 0,
    completionTime := some 100, durationSeconds := some 100 }

/-- Second completed evaluation of content 1 for the C7 witness. -/
def exEvalC7b : Evaluation :=
  { id := 2, evaluatorId := 2, contentId := 1, startTime := 0,
    completionTime := some 100, durationSeconds := some 100 }

/-- Witness database for C7: two raters, one criterion, identical scores. -/
def exDbC7 : Db :=
  { users := [], contents := [],
    criteria := [{ id := 1, name := "accuracy", scaleMin := 1, scaleMax := 5 }],
    evaluations := [exEvalC7a, exEvalC7b],
    scores := [{ evaluationId := 1, criterionId := 1, score := 3 },
               { evaluationId := 2, criterionId := 1, score := 3 }],
    questions := [], nextEvalId := 3 }

/-- Witness for C7: the analysis of the two-rater content succeeds. -/
theorem C7_inter_rater_agreement_witness :
    (calculate_inter_rater_agreement exDbC7 1).isSome = true := by
  obtain ⟨result, hres, -, -, -, -⟩ :=
    C7_inter_rater_agreement exDbC7 1 (by decide) (by decide)
  rw [hres]
  rfl

end GenAIEval
